import Mathlib

/-!
# Litefab-chain: shallow embedding and verification

A shallow embedding of the litefab-chain node runtime (TypeScript sources
under `src/`): the versioned world-state store, the canonical JSON
serializer, the chaincode execution context, the MSP signature-check
structure, the committer's validation pipeline, the Solo consensus block
producer and the ledger's block-hash computation.  Maps held in LevelDB by
the source are modelled as Lean functions `String → Option _`; the
asynchronous methods of the source are sequential here, matching the
single-threaded event-loop semantics the spec fixes.  Cryptographic
primitives (SHA-256, RSA signatures) live outside this repository
(`node:crypto`); they are modelled at interface level as noted on each
definition.
-/

namespace Litefab

/-! ## Core data model (src/types/index.ts) -/

/-- A world-state version stamp `{blockNum, txNum}`. -/
structure Version where
  blockNum : Nat
  txNum : Nat
deriving DecidableEq, Repr

/-- A read-set entry: `{key, version}` with `version = null` when the key had
no prior committed write at read time. -/
structure ReadVersion where
  key : String
  version : Option Version
deriving DecidableEq, Repr

/-- A write-set entry: `{key, value}` with `value = null` denoting delete. -/
structure WriteEntry where
  key : String
  value : Option String
deriving DecidableEq, Repr

/-- A read-write set: ordered reads and ordered writes. -/
structure RWSet where
  reads : List ReadVersion
  writes : List WriteEntry
deriving DecidableEq, Repr

/-- Transaction type (`DEPLOY_CHAINCODE` / `INVOKE_CHAINCODE`). -/
inductive TxType where
  | DEPLOY_CHAINCODE
  | INVOKE_CHAINCODE
deriving DecidableEq, Repr

/-- Endorsement policy type (`ANY` / `ALL` / `MAJORITY`). -/
inductive PolicyType where
  | ANY
  | ALL
  | MAJORITY
deriving DecidableEq, Repr

/-- An endorsement policy `{type, orgs}`. -/
structure EndorsementPolicy where
  type : PolicyType
  orgs : List String
deriving DecidableEq, Repr

/-- A transaction payload; optional fields mirror the optional properties of
the TypeScript interface (`functionName?`, `args?`, `endorsementPolicy?`). -/
structure TxPayload where
  type : TxType
  chaincodeId : String
  functionName : Option String
  args : Option (List String)
  endorsementPolicy : Option EndorsementPolicy
deriving DecidableEq, Repr

/-- A peer's endorsement of a proposal. -/
structure Endorsement where
  endorserId : String
  endorserOrgId : String
  signature : String
deriving DecidableEq, Repr

/-- A signed transaction envelope. -/
structure TransactionEnvelope where
  txId : String
  creatorId : String
  creatorOrgId : String
  creatorPubKey : String
  payload : TxPayload
  rwSet : RWSet
  result : Option String
  endorsements : List Endorsement
  clientSignature : String
deriving DecidableEq, Repr

/-- Per-transaction validation code assigned by the committer. -/
inductive ValidationCode where
  | VALID
  | ENDORSEMENT_POLICY_FAILURE
  | MVCC_READ_CONFLICT
  | BAD_PAYLOAD
  | MSP_VALIDATION_FAILED
deriving DecidableEq, Repr

/-- A `metadata.validationInfo` entry `{txId, code, message?}`. -/
structure TxValidationInfo where
  txId : String
  code : ValidationCode
  message : Option String
deriving DecidableEq, Repr

/-- Block header. -/
structure BlockHeader where
  number : Nat
  previousHash : String
  dataHash : String
deriving DecidableEq, Repr

/-- Block metadata; `validationInfo` is absent (`none`) until the committer
fills it. -/
structure BlockMetadata where
  timestamp : String
  ordererId : String
  ordererSignature : String
  validationInfo : Option (List TxValidationInfo)
deriving DecidableEq, Repr

/-- A block. -/
structure Block where
  header : BlockHeader
  transactions : List TransactionEnvelope
  metadata : BlockMetadata
deriving DecidableEq, Repr

/-! ## World-state store (src/storage/index.ts, `WorldStateStore`)

The source keeps two LevelDB column families, `state:<channel>:<key>` and
`version:<channel>:<key>`, of one fixed channel; they are modelled as the two
maps of `WorldState`. -/

/-- The world-state store: value map and version map. -/
structure WorldState where
  state : String → Option String
  version : String → Option Version

/-- The empty world state (fresh store). -/
def WorldState.empty : WorldState :=
  { state := fun _ => none, version := fun _ => none }

/-- `getState(key)`: current value, `null` if absent. -/
def WorldState.getState (ws : WorldState) (key : String) : Option String :=
  ws.state key

/-- `getVersion(key)`: current version stamp, `null` if never written. -/
def WorldState.getVersion (ws : WorldState) (key : String) : Option Version :=
  ws.version key

/-- `setState(key, value)`. -/
def WorldState.setState (ws : WorldState) (key value : String) : WorldState :=
  { ws with state := fun k => if k = key then some value else ws.state k }

/-- `deleteState(key)`. -/
def WorldState.deleteState (ws : WorldState) (key : String) : WorldState :=
  { ws with state := fun k => if k = key then none else ws.state k }

/-- `setVersion(key, version)`. -/
def WorldState.setVersion (ws : WorldState) (key : String) (v : Version) : WorldState :=
  { ws with version := fun k => if k = key then some v else ws.version k }

/-- One iteration of the `applyRWSet` write loop: delete or set the state
entry, then stamp the version with `(blockNumber, txNumber)`. -/
def applyWrite (ws : WorldState) (w : WriteEntry) (blockNumber txNumber : Nat) : WorldState :=
  match w.value with
  | none => (ws.deleteState w.key).setVersion w.key ⟨blockNumber, txNumber⟩
  | some v => (ws.setState w.key v).setVersion w.key ⟨blockNumber, txNumber⟩

/-- `applyRWSet(rwSet, blockNumber, txNumber)`: apply the writes in order;
the reads component is not consulted. -/
def applyRWSet (ws : WorldState) (rwSet : RWSet) (blockNumber txNumber : Nat) : WorldState :=
  rwSet.writes.foldl (fun s w => applyWrite s w blockNumber txNumber) ws

/-- `validateReadSet(reads)`: for each read in order, compare the recorded
version with the current one; the first mismatch (including the
null-vs-present cases) returns `false`. -/
def validateReadSet (ws : WorldState) : List ReadVersion → Bool
  | [] => true
  | read :: rest =>
    match read.version, ws.getVersion read.key with
    | none, some _ => false
    | some _, none => false
    | some rv, some cv =>
      if rv.blockNum ≠ cv.blockNum ∨ rv.txNum ≠ cv.txNum then false
      else validateReadSet ws rest
    | none, none => validateReadSet ws rest

/-! ## Canonical serialization (src/crypto/index.ts, `canonicalStringify`)

`canonicalStringify(obj) = JSON.stringify(obj, Object.keys(obj).sort())`.
A JSON value is modelled by `Json` (the repository serializes only strings,
natural numbers, booleans, null, arrays and plain objects).  Passing an
array as `JSON.stringify`'s second argument makes it a property whitelist:
at *every* object level only the listed keys are emitted, in list order;
array elements are always emitted.  `stringifyWith` reproduces this; the
fuel argument only bounds the recursion depth and `canonicalStringify`
supplies `sizeOf`, which dominates the depth of any `Json` value. -/

/-- A JSON value as produced and consumed by the source. -/
inductive Json where
  | null
  | bool (b : Bool)
  | num (n : Nat)
  | str (s : String)
  | arr (items : List Json)
  | obj (fields : List (String × Json))
deriving Repr

/-- Lowercase hexadecimal digit. -/
def hexDigit (n : Nat) : Char :=
  if n < 10 then Char.ofNat (48 + n) else Char.ofNat (87 + n)

/-- `JSON.stringify` escaping of one character of a string. -/
def escapeChar (c : Char) : String :=
  if c = Char.ofNat 34 then "\\\""
  else if c = Char.ofNat 92 then "\\\\"
  else if c = Char.ofNat 8 then "\\b"
  else if c = Char.ofNat 9 then "\\t"
  else if c = Char.ofNat 10 then "\\n"
  else if c = Char.ofNat 12 then "\\f"
  else if c = Char.ofNat 13 then "\\r"
  else if c.toNat < 32 then
    "\\u00" ++ String.mk [hexDigit (c.toNat / 16), hexDigit (c.toNat % 16)]
  else String.singleton c

/-- `JSON.stringify` quoting of a string. -/
def quoteJSONString (s : String) : String :=
  "\"" ++ String.join (s.data.map escapeChar) ++ "\""

/-- `Object.keys(obj)`: the own keys of a plain object in insertion order
(`canonicalStringify` is only applied to plain objects in the source). -/
def jsObjectKeys : Json → List String
  | .obj fields => fields.map Prod.fst
  | _ => []

/-- Insert a string into a sorted list (`Array.prototype.sort` comparison:
lexicographic on code units, which for the repository's ASCII keys agrees
with `String.lt`). -/
def insertStr (s : String) : List String → List String
  | [] => [s]
  | t :: ts => if s < t then s :: t :: ts else t :: insertStr s ts

/-- `Array.prototype.sort()` on strings. -/
def sortStrings : List String → List String
  | [] => []
  | s :: ss => insertStr s (sortStrings ss)

/-- `JSON.stringify(·, ks)` with the property-whitelist `ks` applied at every
object level, as the JS replacer-array semantics prescribe. -/
def stringifyWith : Nat → List String → Json → String
  | 0, _, _ => ""
  | fuel + 1, ks, j =>
    match j with
    | .null => "null"
    | .bool b => if b then "true" else "false"
    | .num n => toString n
    | .str s => quoteJSONString s
    | .arr items =>
      "[" ++ String.intercalate "," (items.map (stringifyWith fuel ks)) ++ "]"
    | .obj fields =>
      "\x7b" ++ String.intercalate ","
        (ks.filterMap fun k =>
          (fields.lookup k).map fun v =>
            quoteJSONString k ++ ":" ++ stringifyWith fuel ks v)
        ++ "\x7d"

mutual

/-- Nesting depth of a JSON value (used as recursion fuel for
`stringifyWith`; the serializer descends one level per fuel unit). -/
def jsonDepth : Json → Nat
  | .null => 1
  | .bool _ => 1
  | .num _ => 1
  | .str _ => 1
  | .arr items => 1 + jsonListDepth items
  | .obj fields => 1 + jsonFieldsDepth fields

/-- Greatest depth among the values of a JSON array. -/
def jsonListDepth : List Json → Nat
  | [] => 0
  | j :: js => max (jsonDepth j) (jsonListDepth js)

/-- Greatest depth among the values of a JSON object's fields. -/
def jsonFieldsDepth : List (String × Json) → Nat
  | [] => 0
  | (_, j) :: fs => max (jsonDepth j) (jsonFieldsDepth fs)

end

/-- `canonicalStringify(obj) = JSON.stringify(obj, Object.keys(obj).sort())`. -/
def canonicalStringify (obj : Json) : String :=
  stringifyWith (jsonDepth obj) (sortStrings (jsObjectKeys obj)) obj

/-! ## Hashing (src/crypto/index.ts, `hash`) -/

/-- Modelled from the spec: `hash` is the SHA-256 hex digest ("SHA-256
digests", specified at interface level; the primitive is `node:crypto`,
outside this repository).  Stand-in: a computable 256-bit polynomial digest
rendered in the same output format, a 64-character lowercase hex string. -/
def hashDigest (s : String) : Nat :=
  s.data.foldl (fun a c => (a * 131 + c.toNat + 17) % (2 ^ 256)) 7

/-- Render a natural number as a fixed-width lowercase hex string. -/
def toHexString : Nat → Nat → String → String
  | 0, _, acc => acc
  | k + 1, n, acc => toHexString k (n / 16) (String.singleton (hexDigit (n % 16)) ++ acc)

/-- SHA-256 stand-in (see `hashDigest`): 64 lowercase hex characters. -/
def hash (s : String) : String :=
  toHexString 64 (hashDigest s) ""

/-! ## JSON encodings of the entities

The object literals the source passes to `canonicalStringify` and
`JSON.stringify`, with keys in the insertion order of the corresponding
TypeScript literals/interfaces; optional fields are present only when set
(`JSON.stringify` drops `undefined`-valued properties). -/

/-- `{blockNum, txNum}`. -/
def versionToJson (v : Version) : Json :=
  .obj [("blockNum", .num v.blockNum), ("txNum", .num v.txNum)]

/-- A read entry `{key, version}`. -/
def readVersionToJson (r : ReadVersion) : Json :=
  .obj [("key", .str r.key),
        ("version", match r.version with | none => .null | some v => versionToJson v)]

/-- A write entry `{key, value}`. -/
def writeEntryToJson (w : WriteEntry) : Json :=
  .obj [("key", .str w.key),
        ("value", match w.value with | none => .null | some s => .str s)]

/-- `{reads, writes}`. -/
def rwSetToJson (rw : RWSet) : Json :=
  .obj [("reads", .arr (rw.reads.map readVersionToJson)),
        ("writes", .arr (rw.writes.map writeEntryToJson))]

/-- The literal of a `PolicyType`. -/
def policyTypeName : PolicyType → String
  | .ANY => "ANY"
  | .ALL => "ALL"
  | .MAJORITY => "MAJORITY"

/-- `{type, orgs}`. -/
def policyToJson (p : EndorsementPolicy) : Json :=
  .obj [("type", .str (policyTypeName p.type)), ("orgs", .arr (p.orgs.map .str))]

/-- The literal of a `TxType`. -/
def txTypeName : TxType → String
  | .DEPLOY_CHAINCODE => "DEPLOY_CHAINCODE"
  | .INVOKE_CHAINCODE => "INVOKE_CHAINCODE"

/-- A transaction payload object. -/
def payloadToJson (p : TxPayload) : Json :=
  .obj ([("type", .str (txTypeName p.type)), ("chaincodeId", .str p.chaincodeId)]
    ++ (match p.functionName with | none => [] | some f => [("functionName", .str f)])
    ++ (match p.args with | none => [] | some a => [("args", .arr (a.map .str))])
    ++ (match p.endorsementPolicy with | none => [] | some pol => [("endorsementPolicy", policyToJson pol)]))

/-- `{endorserId, endorserOrgId, signature}`. -/
def endorsementToJson (e : Endorsement) : Json :=
  .obj [("endorserId", .str e.endorserId), ("endorserOrgId", .str e.endorserOrgId),
        ("signature", .str e.signature)]

/-- A `result` value (string or null). -/
def resultToJson : Option String → Json
  | none => .null
  | some s => .str s

/-- The object the client signature covers (the literal built in the peer's
`/submit` handler and in `Committer.validateTransaction`): all envelope
fields except `clientSignature`. -/
def signedTxJson (tx : TransactionEnvelope) : Json :=
  .obj [("txId", .str tx.txId), ("creatorId", .str tx.creatorId),
        ("creatorOrgId", .str tx.creatorOrgId), ("creatorPubKey", .str tx.creatorPubKey),
        ("payload", payloadToJson tx.payload), ("rwSet", rwSetToJson tx.rwSet),
        ("result", resultToJson tx.result),
        ("endorsements", .arr (tx.endorsements.map endorsementToJson))]

/-- The object an endorsement signature covers:
`{proposal: {txId, payload}, rwSet, result}`. -/
def endorsementDataJson (txId : String) (payload : TxPayload) (rw : RWSet)
    (result : Option String) : Json :=
  .obj [("proposal", .obj [("txId", .str txId), ("payload", payloadToJson payload)]),
        ("rwSet", rwSetToJson rw), ("result", resultToJson result)]

/-- A full transaction envelope object (as persisted and hashed by the
ledger). -/
def envelopeToJson (tx : TransactionEnvelope) : Json :=
  .obj [("txId", .str tx.txId), ("creatorId", .str tx.creatorId),
        ("creatorOrgId", .str tx.creatorOrgId), ("creatorPubKey", .str tx.creatorPubKey),
        ("payload", payloadToJson tx.payload), ("rwSet", rwSetToJson tx.rwSet),
        ("result", resultToJson tx.result),
        ("endorsements", .arr (tx.endorsements.map endorsementToJson)),
        ("clientSignature", .str tx.clientSignature)]

/-- The literal of a `ValidationCode`. -/
def codeName : ValidationCode → String
  | .VALID => "VALID"
  | .ENDORSEMENT_POLICY_FAILURE => "ENDORSEMENT_POLICY_FAILURE"
  | .MVCC_READ_CONFLICT => "MVCC_READ_CONFLICT"
  | .BAD_PAYLOAD => "BAD_PAYLOAD"
  | .MSP_VALIDATION_FAILED => "MSP_VALIDATION_FAILED"

/-- A `validationInfo` entry `{txId, code, message?}`. -/
def validationInfoToJson (i : TxValidationInfo) : Json :=
  .obj ([("txId", .str i.txId), ("code", .str (codeName i.code))]
    ++ (match i.message with | none => [] | some m => [("message", .str m)]))

/-- Block metadata object; `validationInfo` present only once the committer
filled it. -/
def metadataToJson (m : BlockMetadata) : Json :=
  .obj ([("timestamp", .str m.timestamp), ("ordererId", .str m.ordererId),
         ("ordererSignature", .str m.ordererSignature)]
    ++ (match m.validationInfo with
        | none => []
        | some vi => [("validationInfo", .arr (vi.map validationInfoToJson))]))

/-- Block header object `{number, previousHash, dataHash}`. -/
def headerToJson (h : BlockHeader) : Json :=
  .obj [("number", .num h.number), ("previousHash", .str h.previousHash),
        ("dataHash", .str h.dataHash)]

/-! ## Ledger store (src/storage/index.ts, `LedgerStore`) -/

/-- `LedgerStore.calculateBlockHash`:
`hash(canonical(header) + concat(canonical(tx)) + canonical(metadata))`. -/
def calculateBlockHash (b : Block) : String :=
  hash (canonicalStringify (headerToJson b.header)
    ++ String.join (b.transactions.map fun tx => canonicalStringify (envelopeToJson tx))
    ++ canonicalStringify (metadataToJson b.metadata))

/-- The ledger store: `block:<n>`, `hash:<h>` index and `meta:latest`
(`-1` when empty). -/
structure Ledger where
  blocks : Nat → Option Block
  hashIndex : String → Option Nat
  latest : Int

/-- A fresh ledger store. -/
def Ledger.empty : Ledger :=
  { blocks := fun _ => none, hashIndex := fun _ => none, latest := -1 }

/-- `LedgerStore.storeBlock(block)`: persist under `block:<number>`, index
the computed hash, update `meta:latest`. -/
def storeBlock (l : Ledger) (b : Block) : Ledger :=
  { blocks := fun n => if n = b.header.number then some b else l.blocks n,
    hashIndex := fun h => if h = calculateBlockHash b then some b.header.number else l.hashIndex h,
    latest := Int.ofNat b.header.number }

/-! ## Chaincode execution context (src/chaincode/index.ts,
`ChaincodeExecutionContext`) -/

/-- The per-transaction execution context: the world-state snapshot plus the
read and write sets collected so far. -/
structure ChaincodeExecutionContext where
  txId : String
  clientId : String
  clientOrgId : String
  worldState : WorldState
  readSet : List ReadVersion
  writeSet : List WriteEntry

/-- `getState(key)`: record `{key, getVersion(key)}` in the read set, then
return the current world-state value. -/
def ctxGetState (ctx : ChaincodeExecutionContext) (key : String) :
    Option String × ChaincodeExecutionContext :=
  let version := ctx.worldState.getVersion key
  (ctx.worldState.getState key,
   { ctx with readSet := ctx.readSet ++ [⟨key, version⟩] })

/-- `putState(key, value)`: append `{key, value}` to the write set. -/
def ctxPutState (ctx : ChaincodeExecutionContext) (key value : String) :
    ChaincodeExecutionContext :=
  { ctx with writeSet := ctx.writeSet ++ [⟨key, some value⟩] }

/-- `delState(key)`: append `{key, null}` to the write set. -/
def ctxDelState (ctx : ChaincodeExecutionContext) (key : String) :
    ChaincodeExecutionContext :=
  { ctx with writeSet := ctx.writeSet ++ [⟨key, none⟩] }

/-- `getRWSet()`. -/
def ctxGetRWSet (ctx : ChaincodeExecutionContext) : RWSet :=
  { reads := ctx.readSet, writes := ctx.writeSet }

/-! ## MSP (src/msp/index.ts) -/

/-- Identity role. -/
inductive Role where
  | ADMIN
  | CLIENT
  | PEER
  | ORDERER
deriving DecidableEq, Repr

/-- The literal of a `Role`. -/
def roleName : Role → String
  | .ADMIN => "ADMIN"
  | .CLIENT => "CLIENT"
  | .PEER => "PEER"
  | .ORDERER => "ORDERER"

/-- An MSP identity. -/
structure Identity where
  id : String
  orgId : String
  role : Role
  publicKey : String
deriving DecidableEq, Repr

/-- Result of `MSP.verifySignature`: `{valid, error?}` (the `identity` field
of the source result is not consulted by the committer). -/
structure VerifyResult where
  valid : Bool
  error : Option String
deriving DecidableEq, Repr

/-- The MSP: the identity directory (built from the network config at load,
read-only afterwards) and the signature primitive.  `verify` is modelled
from the spec: RSA-2048 with SHA-256 over the canonical data, base64
signature, specified at interface level (the primitive is `node:crypto`,
outside this repository); it takes data, signature and public key. -/
structure MSP where
  identities : String → Option Identity
  verify : String → String → String → Bool

/-- `MSP.verifySignature(data, signature, signerId, expectedRole?)`: look up
the identity, enforce the role when given, then verify against the
identity's public key; every failure is reported as `{valid: false, error}`
rather than thrown. -/
def MSP.verifySignature (msp : MSP) (data signature signerId : String)
    (expectedRole : Option Role) : VerifyResult :=
  match msp.identities signerId with
  | none => ⟨false, some ("Identity " ++ signerId ++ " not found")⟩
  | some identity =>
    match expectedRole with
    | some r =>
      if identity.role ≠ r then
        ⟨false, some ("Identity " ++ signerId ++ " has role " ++ roleName identity.role
          ++ ", expected " ++ roleName r)⟩
      else if msp.verify data signature identity.publicKey then ⟨true, none⟩
      else ⟨false, some ("Invalid signature for " ++ signerId)⟩
    | none =>
      if msp.verify data signature identity.publicKey then ⟨true, none⟩
      else ⟨false, some ("Invalid signature for " ++ signerId)⟩

/-! ## Committer (src/peer/index.ts, `Committer`) -/

/-- A chaincode metadata record, as stored by `ChaincodeMetadataStore`
(`chaincodeId`, `version`, `endorsementPolicy`; the store also records a
`deployedAt` wall-clock timestamp, never read by any code path modelled
here, so it is omitted). -/
structure ChaincodeMetadata where
  chaincodeId : String
  version : String
  endorsementPolicy : EndorsementPolicy
deriving DecidableEq, Repr

/-- The peer-side mutable state the committer works on.  The source keeps
chaincode metadata JSON-serialized in the same world-state store under the
reserved keys `CHAINCODE:<id>`; that disjoint namespace is modelled as the
separate map `ccMeta` to avoid re-embedding the JSON round-trip. -/
structure PeerState where
  ws : WorldState
  ccMeta : String → Option ChaincodeMetadata

/-- Result of one validation step: `{code, message?}`. -/
structure ValResult where
  code : ValidationCode
  message : Option String
deriving DecidableEq, Repr

/-- `Committer.checkEndorsementPolicy(policy, endorsingOrgs)`. -/
def checkEndorsementPolicy (policy : EndorsementPolicy) (endorsingOrgs : List String) :
    ValResult :=
  match policy.type with
  | .ANY =>
    if policy.orgs.any (fun org => endorsingOrgs.contains org) then ⟨.VALID, none⟩
    else ⟨.ENDORSEMENT_POLICY_FAILURE, some "ANY policy not satisfied"⟩
  | .ALL =>
    if policy.orgs.all (fun org => endorsingOrgs.contains org) then ⟨.VALID, none⟩
    else ⟨.ENDORSEMENT_POLICY_FAILURE, some "ALL policy not satisfied"⟩
  | .MAJORITY =>
    let requiredCount := policy.orgs.length / 2 + 1
    let actualCount := (policy.orgs.filter (fun org => endorsingOrgs.contains org)).length
    if actualCount ≥ requiredCount then ⟨.VALID, none⟩
    else ⟨.ENDORSEMENT_POLICY_FAILURE, some "MAJORITY policy not satisfied"⟩

/-- The endorsement-policy resolution of `Committer.validateEndorsements`:
for DEPLOY the payload's policy or the `{ANY, [creatorOrgId]}` fallback; for
INVOKE the policy of the chaincode metadata entry, `none` when the chaincode
is unknown. -/
def resolvePolicy (st : PeerState) (tx : TransactionEnvelope) : Option EndorsementPolicy :=
  match tx.payload.type with
  | .DEPLOY_CHAINCODE => some (tx.payload.endorsementPolicy.getD ⟨.ANY, [tx.creatorOrgId]⟩)
  | .INVOKE_CHAINCODE => (st.ccMeta tx.payload.chaincodeId).map (·.endorsementPolicy)

/-- One endorsement-signature check of the `validateEndorsements` loop:
role PEER over `canonical({proposal: {txId, payload}, rwSet, result})`. -/
def verifyEndorsement (msp : MSP) (tx : TransactionEnvelope) (e : Endorsement) : VerifyResult :=
  msp.verifySignature
    (canonicalStringify (endorsementDataJson tx.txId tx.payload tx.rwSet tx.result))
    e.signature e.endorserId (some .PEER)

/-- `Set.add` on the endorsing-org set (JS `Set` iterates in insertion
order, so it is modelled as a duplicate-free list). -/
def addEndorsingOrg (orgs : List String) (org : String) : List String :=
  if orgs.contains org then orgs else orgs ++ [org]

/-- The endorsement loop of `Committer.validateEndorsements`: verify each
endorsement in order — a failing signature returns
`ENDORSEMENT_POLICY_FAILURE` with the verifier's error at once — and on
success of the whole loop evaluate the policy over the collected orgs. -/
def endorsementLoop (msp : MSP) (tx : TransactionEnvelope) (policy : EndorsementPolicy) :
    List Endorsement → List String → ValResult
  | [], orgs => checkEndorsementPolicy policy orgs
  | e :: rest, orgs =>
    let vr := verifyEndorsement msp tx e
    if vr.valid then endorsementLoop msp tx policy rest (addEndorsingOrg orgs e.endorserOrgId)
    else ⟨.ENDORSEMENT_POLICY_FAILURE, vr.error⟩

/-- `Committer.validateEndorsements(tx)`. -/
def validateEndorsements (msp : MSP) (st : PeerState) (tx : TransactionEnvelope) : ValResult :=
  match resolvePolicy st tx with
  | none => ⟨.BAD_PAYLOAD, some "Chaincode not found"⟩
  | some policy => endorsementLoop msp tx policy tx.endorsements []

/-- `Committer.validateTransaction(tx, blockNumber, txNumber)`: client
signature (role CLIENT) over the envelope minus `clientSignature`, then
endorsement validation, then the MVCC check against the *current* world
state.  The source's `blockNumber`/`txNumber` parameters are unused by its
body and therefore not taken here. -/
def validateTransaction (msp : MSP) (st : PeerState) (tx : TransactionEnvelope) : ValResult :=
  let txData := canonicalStringify (signedTxJson tx)
  let sv := msp.verifySignature txData tx.clientSignature tx.creatorId (some .CLIENT)
  if !sv.valid then ⟨.MSP_VALIDATION_FAILED, sv.error⟩
  else
    let ev := validateEndorsements msp st tx
    if ev.code ≠ .VALID then ev
    else if !(validateReadSet st.ws tx.rwSet.reads) then
      ⟨.MVCC_READ_CONFLICT, some "Read set validation failed"⟩
    else ⟨.VALID, none⟩

/-- The apply step of `Committer.commitBlock` for a VALID transaction:
`applyRWSet(rwSet, blockNumber, txNumber)`, and for DEPLOY additionally
`storeChaincodeMetadata(chaincodeId, "1.0", policy-or-fallback)`. -/
def applyValidTx (st : PeerState) (tx : TransactionEnvelope) (blockNumber txNumber : Nat) :
    PeerState :=
  let ws := applyRWSet st.ws tx.rwSet blockNumber txNumber
  match tx.payload.type with
  | .DEPLOY_CHAINCODE =>
    { ws := ws,
      ccMeta := fun c =>
        if c = tx.payload.chaincodeId then
          some ⟨tx.payload.chaincodeId, "1.0",
                tx.payload.endorsementPolicy.getD ⟨.ANY, [tx.creatorOrgId]⟩⟩
        else st.ccMeta c }
  | .INVOKE_CHAINCODE => { st with ws := ws }

/-- The per-transaction loop of `Committer.commitBlock`, processing the
remaining transactions with `txNum = i` for the head: validate against the
current state, record `{txId, code, message?}`, apply when VALID, recurse. -/
def commitLoop (msp : MSP) (blockNumber : Nat) :
    PeerState → Nat → List TransactionEnvelope → List TxValidationInfo × PeerState
  | st, _, [] => ([], st)
  | st, i, tx :: rest =>
    let v := validateTransaction msp st tx
    let st1 := if v.code = .VALID then applyValidTx st tx blockNumber i else st
    let r := commitLoop msp blockNumber st1 (i + 1) rest
    (⟨tx.txId, v.code, v.message⟩ :: r.1, r.2)

/-- `Committer.commitBlock(block)`: validate and apply the transactions in
block order starting at index 0, write the collected `validationInfo` into
the block's metadata, and persist the block to the ledger. -/
def commitBlock (msp : MSP) (st : PeerState) (ledger : Ledger) (block : Block) :
    List TxValidationInfo × PeerState × Ledger :=
  let r := commitLoop msp block.header.number st 0 block.transactions
  let block1 := { block with metadata := { block.metadata with validationInfo := some r.1 } }
  (r.1, r.2, storeBlock ledger block1)

/-- One transaction step of the committer viewed as a state transformer
(the state reached after a prefix of the block): validate at the current
state, apply when VALID with `txNum` the running index, advance the index. -/
def commitStep (msp : MSP) (blockNumber : Nat) (p : PeerState × Nat)
    (tx : TransactionEnvelope) : PeerState × Nat :=
  let v := validateTransaction msp p.1 tx
  ((if v.code = .VALID then applyValidTx p.1 tx blockNumber p.2 else p.1), p.2 + 1)

/-- The peer state after the first `k` transactions of a block have been
processed (writes of exactly the VALID ones among them applied, at their
block indices). -/
def prefixState (msp : MSP) (blockNumber : Nat) (st : PeerState)
    (txs : List TransactionEnvelope) (k : Nat) : PeerState :=
  ((txs.take k).foldl (commitStep msp blockNumber) (st, 0)).1

/-- Replay of the apply phase from recorded validation codes: walk the
transactions paired with their recorded `validationInfo`, applying exactly
those recorded VALID (at their block indices) and skipping the rest. -/
def applySkipping (blockNumber : Nat) :
    PeerState → Nat → List (TransactionEnvelope × TxValidationInfo) → PeerState
  | st, _, [] => st
  | st, i, (tx, info) :: rest =>
    applySkipping blockNumber
      (if info.code = .VALID then applyValidTx st tx blockNumber i else st) (i + 1) rest

/-- The distinct-org list a JS `Set` accumulates from a list of orgs. -/
def distinctOrgs (orgs : List String) : List String :=
  orgs.foldl addEndorsingOrg []

/-! ## Solo consensus (src/consensus/index.ts, `SoloConsensus`) -/

/-- The Solo consensus state: node id, next block number, pending queue. -/
structure SoloState where
  nodeId : String
  blockNumber : Nat
  pendingTxs : List TransactionEnvelope

/-- `SoloConsensus.submitTx(tx)`: append to the pending queue (the timer it
arms only schedules `createBlock`, modelled as the explicit call below). -/
def soloSubmitTx (s : SoloState) (tx : TransactionEnvelope) : SoloState :=
  { s with pendingTxs := s.pendingTxs ++ [tx] }

/-- `SoloConsensus.createBlock()` at timer expiry (`timestamp` is the
wall-clock ISO string, taken as a parameter): cut a block with the hardcoded
`previousHash = "0"` and `dataHash` the joined txIds, advance the block
number, drain the queue; no block when the queue is empty. -/
def soloCreateBlock (s : SoloState) (timestamp : String) : Option Block × SoloState :=
  if s.pendingTxs = [] then (none, s)
  else
    (some { header := { number := s.blockNumber, previousHash := "0",
                        dataHash := String.intercalate "|" (s.pendingTxs.map (·.txId)) },
            transactions := s.pendingTxs,
            metadata := { timestamp, ordererId := s.nodeId, ordererSignature := "",
                          validationInfo := none } },
     { s with blockNumber := s.blockNumber + 1, pendingTxs := [] })

/-! ## Concrete fixtures (used by witnesses and counterexamples) -/

/-- Our two value-distinct objects differing only in the nested field
`payload.args`: `{"payload": {"args": "1"}}`. -/
def cNestedX : Json := .obj [("payload", .obj [("args", .str "1")])]

/-- `{"payload": {"args": "2"}}`. -/
def cNestedY : Json := .obj [("payload", .obj [("args", .str "2")])]

/-- A fresh peer state: empty world state, no chaincode metadata. -/
def emptyPeerState : PeerState := { ws := WorldState.empty, ccMeta := fun _ => none }

/-- A sample read/write set: one read, one put and one delete. -/
def rwSample : RWSet := ⟨[⟨"r", none⟩], [⟨"a", some "1"⟩, ⟨"b", none⟩]⟩

/-- A fresh execution context over the empty world state. -/
def sampleCtx : ChaincodeExecutionContext :=
  { txId := "t0", clientId := "c1", clientOrgId := "Org1",
    worldState := WorldState.empty, readSet := [], writeSet := [] }

/-- A directory of three identities: the Org1 client and peers of Org1 and
Org2. -/
def sampleIdentities : String → Option Identity := fun i =>
  if i = "c1" then some ⟨"c1", "Org1", .CLIENT, "pkC"⟩
  else if i = "peer1" then some ⟨"peer1", "Org1", .PEER, "pk1"⟩
  else if i = "peer2" then some ⟨"peer2", "Org2", .PEER, "pk2"⟩
  else none

/-- An MSP whose signature primitive accepts exactly the signature `"ok"`. -/
def mspSig : MSP :=
  { identities := sampleIdentities, verify := fun _ signature _ => signature == "ok" }

/-- A DEPLOY transaction with policy `{ANY, [Org1]}` carrying one verifiable
(Org1) and one unverifiable (Org2) endorsement under `mspSig`. -/
def txTwoEnd : TransactionEnvelope :=
  { txId := "tx7", creatorId := "c1", creatorOrgId := "Org1", creatorPubKey := "pkC",
    payload := ⟨.DEPLOY_CHAINCODE, "basic", none, some [], some ⟨.ANY, ["Org1"]⟩⟩,
    rwSet := ⟨[], []⟩, result := none,
    endorsements := [⟨"peer1", "Org1", "ok"⟩, ⟨"peer2", "Org2", "bad"⟩],
    clientSignature := "ok" }

/-- A fully verifiable DEPLOY transaction (policy `{ANY, [Org1]}`, one Org1
endorsement) under `mspSig`. -/
def witnessTx : TransactionEnvelope :=
  { txId := "tx3", creatorId := "c1", creatorOrgId := "Org1", creatorPubKey := "pkC",
    payload := ⟨.DEPLOY_CHAINCODE, "basic", none, some [], some ⟨.ANY, ["Org1"]⟩⟩,
    rwSet := ⟨[], [⟨"k", some "v"⟩]⟩, result := none,
    endorsements := [⟨"peer1", "Org1", "ok"⟩],
    clientSignature := "ok" }

/-- A one-transaction block carrying `witnessTx`. -/
def witnessBlock : Block :=
  { header := ⟨7, "0", "d"⟩, transactions := [witnessTx],
    metadata := ⟨"2024-01-01T00:00:00.000Z", "orderer1", "", none⟩ }

/-- A minimal INVOKE envelope used to feed the Solo consensus run. -/
def mkInvokeTx (id : String) : TransactionEnvelope :=
  { txId := id, creatorId := "c1", creatorOrgId := "Org1", creatorPubKey := "pkC",
    payload := ⟨.INVOKE_CHAINCODE, "basic", some "f", some [], none⟩,
    rwSet := ⟨[], []⟩, result := none, endorsements := [], clientSignature := "ok" }

/-- A placeholder block for `Option.getD` (never selected below). -/
def dummyBlock : Block :=
  { header := ⟨0, "", ""⟩, transactions := [], metadata := ⟨"", "", "", none⟩ }

/-- Fresh Solo state of node `orderer1`. -/
def soloS0 : SoloState := ⟨"orderer1", 0, []⟩

/-- First Solo round: submit `t1`, timer fires. -/
def soloCut0 : Option Block × SoloState :=
  soloCreateBlock (soloSubmitTx soloS0 (mkInvokeTx "t1")) "2024-01-01T00:00:00.000Z"

/-- The first block the Solo orderer cuts. -/
def soloBlock0 : Block := soloCut0.1.getD dummyBlock

/-- Second Solo round: submit `t2`, timer fires. -/
def soloCut1 : Option Block × SoloState :=
  soloCreateBlock (soloSubmitTx soloCut0.2 (mkInvokeTx "t2")) "2024-01-01T00:00:02.000Z"

/-- The second block the Solo orderer cuts. -/
def soloBlock1 : Block := soloCut1.1.getD dummyBlock

/-- The orderer's ledger after persisting block 0 (`onBlockCommitted`). -/
def soloLedger0 : Ledger := storeBlock Ledger.empty soloBlock0

/-! ## Theorems -/

/-- Versions survive later writes of the same stamp: once a key's version is
`(blockNumber, txNumber)`, folding further writes of the same transaction
over the state keeps it so. -/
theorem applyWrites_version_preserved (l : List WriteEntry) (bn tn : Nat) (k : String) :
    ∀ ws : WorldState, ws.version k = some ⟨bn, tn⟩ →
      (l.foldl (fun s w => applyWrite s w bn tn) ws).version k = some ⟨bn, tn⟩ := by
  induction l with
  | nil => intro ws h; simpa using h
  | cons w rest ih =>
    intro ws h
    simp only [List.foldl_cons]
    apply ih
    cases hv : w.value <;>
      simp only [applyWrite, hv, WorldState.setVersion, WorldState.setState,
        WorldState.deleteState] <;>
      split <;> simp [h]

/-- Every write entry of a list leaves the fold with its key stamped at
`(blockNumber, txNumber)`. -/
theorem applyWrites_stamps (l : List WriteEntry) (bn tn : Nat) (w : WriteEntry)
    (hw : w ∈ l) :
    ∀ ws : WorldState,
      (l.foldl (fun s u => applyWrite s u bn tn) ws).version w.key = some ⟨bn, tn⟩ := by
  induction l with
  | nil => cases hw
  | cons w0 rest ih =>
    intro ws
    rcases List.mem_cons.mp hw with h | h
    · subst h
      simp only [List.foldl_cons]
      apply applyWrites_version_preserved
      cases hv : w.value <;>
        simp [applyWrite, hv, WorldState.setVersion, WorldState.setState,
          WorldState.deleteState]
    · simp only [List.foldl_cons]
      exact ih h _

/-- The write fold leaves every key no write entry names untouched, in both
the state and the version maps. -/
theorem applyWrites_frame (l : List WriteEntry) (bn tn : Nat) (k : String)
    (hk : ∀ w ∈ l, w.key ≠ k) :
    ∀ ws : WorldState,
      (l.foldl (fun s u => applyWrite s u bn tn) ws).state k = ws.state k ∧
      (l.foldl (fun s u => applyWrite s u bn tn) ws).version k = ws.version k := by
  induction l with
  | nil => intro ws; exact ⟨rfl, rfl⟩
  | cons w rest ih =>
    intro ws
    have hw : w.key ≠ k := hk w (List.mem_cons_self w rest)
    have hrest : ∀ u ∈ rest, u.key ≠ k := fun u hu => hk u (List.mem_cons_of_mem w hu)
    simp only [List.foldl_cons]
    have happ : (applyWrite ws w bn tn).state k = ws.state k ∧
        (applyWrite ws w bn tn).version k = ws.version k := by
      cases hv : w.value <;>
        simp only [applyWrite, hv, WorldState.setVersion, WorldState.setState,
          WorldState.deleteState] <;>
        constructor <;> split <;> simp_all
    rcases ih hrest (applyWrite ws w bn tn) with ⟨h1, h2⟩
    exact ⟨h1.trans happ.1, h2.trans happ.2⟩

/-- C2: `validateReadSet(reads)` returns true iff every read entry's
recorded version strictly equals the currently stored version of its key —
absent (`∅`) distinct from every present version, present versions compared
on both `blockNum` and `txNum`; equivalently, any mismatching entry (in
particular the first) makes the result false. -/
theorem validateReadSet_iff_strict_equality (ws : WorldState) (reads : List ReadVersion) :
    validateReadSet ws reads = true ↔ ∀ r ∈ reads, r.version = ws.getVersion r.key := by
  induction reads with
  | nil => simp [validateReadSet]
  | cons read rest ih =>
    simp only [List.forall_mem_cons]
    cases hv : read.version with
    | none =>
      cases hc : ws.getVersion read.key with
      | none => simp [validateReadSet, hv, hc, ih]
      | some cv => simp [validateReadSet, hv, hc]
    | some rv =>
      cases hc : ws.getVersion read.key with
      | none => simp [validateReadSet, hv, hc]
      | some cv =>
        obtain ⟨rb, rt⟩ := rv
        obtain ⟨cb, ct⟩ := cv
        by_cases hb : rb = cb
        · by_cases ht : rt = ct
          · subst hb; subst ht
            simp [validateReadSet, hv, hc, ih]
          · simp [validateReadSet, hv, hc, ht, Version.mk.injEq]
        · simp [validateReadSet, hv, hc, hb, Version.mk.injEq]

/-- C8: after `applyRWSet(rwSet, blockNum, txNum)`, every write entry's key
— put or delete alike — reports version `{blockNum, txNum}`. -/
theorem applyRWSet_stamps_every_write (ws : WorldState) (rw : RWSet) (bn tn : Nat)
    (w : WriteEntry) (hw : w ∈ rw.writes) :
    (applyRWSet ws rw bn tn).getVersion w.key = some ⟨bn, tn⟩ :=
  applyWrites_stamps rw.writes bn tn w hw ws

/-- C8 witness: applying a delete write entry `{key: "b", value: ∅}` at
`(blockNum, txNum) = (5, 2)` stamps version `(5, 2)` on `"b"`. -/
theorem applyRWSet_stamps_every_write_witness :
    (applyRWSet WorldState.empty rwSample 5 2).getVersion "b" = some ⟨5, 2⟩ :=
  applyRWSet_stamps_every_write WorldState.empty rwSample 5 2 ⟨"b", none⟩ (by decide)

/-- C10: `applyRWSet` is frame-bounded by its write keys — any key no write
entry names keeps both its value and its version — and it never consults
the reads component: replacing `reads` by anything leaves the result
unchanged. -/
theorem applyRWSet_frame_reads_ignored (ws : WorldState) (rw : RWSet) (bn tn : Nat)
    (k : String) (hk : ∀ w ∈ rw.writes, w.key ≠ k) :
    ((applyRWSet ws rw bn tn).getState k = ws.getState k ∧
     (applyRWSet ws rw bn tn).getVersion k = ws.getVersion k) ∧
    ∀ reads2 : List ReadVersion,
      applyRWSet ws ⟨reads2, rw.writes⟩ bn tn = applyRWSet ws rw bn tn :=
  ⟨applyWrites_frame rw.writes bn tn k hk ws, fun _ => rfl⟩

/-- C10 witness: at the unwritten key `"c"`, state and version survive
`applyRWSet` of `rwSample`, whose reads component is also irrelevant. -/
theorem applyRWSet_frame_reads_ignored_witness :
    (((applyRWSet WorldState.empty rwSample 3 1).getState "c" =
        WorldState.empty.getState "c" ∧
      (applyRWSet WorldState.empty rwSample 3 1).getVersion "c" =
        WorldState.empty.getVersion "c") ∧
     ∀ reads2 : List ReadVersion,
       applyRWSet WorldState.empty ⟨reads2, rwSample.writes⟩ 3 1 =
         applyRWSet WorldState.empty rwSample 3 1) :=
  applyRWSet_frame_reads_ignored WorldState.empty rwSample 3 1 "c" (by decide)

/-- C4: `checkEndorsementPolicy` matches the specified semantics exactly —
ANY iff some policy org is among the endorsing orgs, ALL iff every one is,
MAJORITY iff the count of policy orgs present is at least
`⌊|policy.orgs|/2⌋ + 1` — and any failing evaluation yields the code
`ENDORSEMENT_POLICY_FAILURE`. -/
theorem checkEndorsementPolicy_semantics (orgsP endorsing : List String) :
    (((checkEndorsementPolicy ⟨.ANY, orgsP⟩ endorsing).code = .VALID) ↔
        ∃ org ∈ orgsP, org ∈ endorsing) ∧
    (((checkEndorsementPolicy ⟨.ALL, orgsP⟩ endorsing).code = .VALID) ↔
        ∀ org ∈ orgsP, org ∈ endorsing) ∧
    (((checkEndorsementPolicy ⟨.MAJORITY, orgsP⟩ endorsing).code = .VALID) ↔
        orgsP.length / 2 + 1 ≤ (orgsP.filter fun org => endorsing.contains org).length) ∧
    (∀ t : PolicyType, (checkEndorsementPolicy ⟨t, orgsP⟩ endorsing).code = .VALID ∨
        (checkEndorsementPolicy ⟨t, orgsP⟩ endorsing).code = .ENDORSEMENT_POLICY_FAILURE) := by
  refine ⟨?_, ?_, ?_, ?_⟩
  · have hb : (checkEndorsementPolicy ⟨.ANY, orgsP⟩ endorsing).code = .VALID ↔
        (orgsP.any fun org => endorsing.contains org) = true := by
      simp only [checkEndorsementPolicy]
      split <;> simp_all
    rw [hb]
    simp
  · have hb : (checkEndorsementPolicy ⟨.ALL, orgsP⟩ endorsing).code = .VALID ↔
        (orgsP.all fun org => endorsing.contains org) = true := by
      simp only [checkEndorsementPolicy]
      split <;> simp_all
    rw [hb]
    simp
  · have hb : (checkEndorsementPolicy ⟨.MAJORITY, orgsP⟩ endorsing).code = .VALID ↔
        orgsP.length / 2 + 1 ≤ (orgsP.filter fun org => endorsing.contains org).length := by
      simp only [checkEndorsementPolicy]
      split <;> rename_i h <;> simp_all [Nat.lt_iff_add_one_le]
    exact hb
  · intro t
    cases t <;> simp only [checkEndorsementPolicy] <;> split <;> simp

/-- C1 (refuting theorem): the two value-distinct objects
`{"payload": {"args": "1"}}` and `{"payload": {"args": "2"}}` canonicalize
to the same string — `JSON.stringify`'s replacer array, built from the
sorted *top-level* keys only, filters the nested key `args` out at the
inner level — so canonical equality does not imply value equality. -/
theorem canonicalStringify_nested_collision :
    canonicalStringify cNestedX = canonicalStringify cNestedY ∧ cNestedX ≠ cNestedY := by
  constructor
  · rfl
  · intro h
    simp [cNestedX, cNestedY] at h

/-- C6 (refuting theorem): in a fresh execution context over the empty
world state, `getState("k")` evaluated after `putState("k", "v")` returns
the world-state value `∅` — not the pending `"v"` — because the context's
`getState` never consults its write set; the read set does record the
original world-state version (∅). -/
theorem ctxGetState_ignores_pending_write :
    (ctxGetState (ctxPutState sampleCtx "k" "v") "k").1 = none ∧
    (ctxGetState (ctxPutState sampleCtx "k" "v") "k").1 ≠ some "v" ∧
    (ctxPutState sampleCtx "k" "v").writeSet = [⟨"k", some "v"⟩] ∧
    (ctxGetState (ctxPutState sampleCtx "k" "v") "k").2.readSet = [⟨"k", none⟩] := by
  refine ⟨rfl, by decide, rfl, rfl⟩

/-- `toHexString` renders exactly its fuel's worth of digits. -/
theorem toHexString_length (k : Nat) :
    ∀ (n : Nat) (acc : String), (toHexString k n acc).length = k + acc.length := by
  induction k with
  | zero => intro n acc; simp [toHexString]
  | succ k ih =>
    intro n acc
    rw [toHexString, ih]
    simp [String.singleton]
    omega

/-- Every digest `hash` produces is 64 characters long. -/
theorem hash_length (s : String) : (hash s).length = 64 := by
  simpa using toHexString_length 64 (hashDigest s) ""

/-- C9 (refuting theorem): the Solo orderer cuts block 1 with
`previousHash = "0"` — the hardcoded constant — while the stored hash the
ledger computes for block 0 is a 64-character digest, never `"0"`; the
hash-chain continuity the claim states fails at the very first pair of
blocks. -/
theorem solo_previousHash_not_chained :
    soloBlock0.header.number = 0 ∧
    soloLedger0.blocks 0 = some soloBlock0 ∧
    soloBlock1.header.number = 1 ∧
    soloBlock1.header.previousHash = "0" ∧
    (calculateBlockHash soloBlock0).length = 64 ∧
    soloBlock1.header.previousHash ≠ calculateBlockHash soloBlock0 := by
  have h64 : (calculateBlockHash soloBlock0).length = 64 := hash_length _
  refine ⟨rfl, by decide, rfl, rfl, h64, ?_⟩
  intro h
  have hlen := congrArg String.length h
  rw [h64] at hlen
  have h1 : soloBlock1.header.previousHash.length = 1 := rfl
  rw [h1] at hlen
  exact absurd hlen (by decide)

/-- The validation entry the commit loop records for position `k` is
computed by `validateTransaction` at the state the loop reached after the
first `k` transactions (VALID ones applied at their running indices). -/
theorem commitLoop_get (msp : MSP) (bn : Nat) :
    ∀ (txs : List TransactionEnvelope) (st : PeerState) (i k : Nat)
      (tx : TransactionEnvelope), txs.get? k = some tx →
      (commitLoop msp bn st i txs).1.get? k =
        some ⟨tx.txId,
          (validateTransaction msp (((txs.take k).foldl (commitStep msp bn) (st, i)).1) tx).code,
          (validateTransaction msp (((txs.take k).foldl (commitStep msp bn) (st, i)).1) tx).message⟩ := by
  intro txs
  induction txs with
  | nil => intro st i k tx h; simp at h
  | cons tx0 rest ih =>
    intro st i k tx h
    cases k with
    | zero =>
      have htx : tx0 = tx := by simpa using h
      subst htx
      rfl
    | succ k =>
      have h2 : rest.get? k = some tx := by simpa using h
      have step := ih ((if (validateTransaction msp st tx0).code = .VALID
          then applyValidTx st tx0 bn i else st)) (i + 1) k tx h2
      simpa [commitLoop, commitStep] using step

/-- C3: `commitBlock` validates and applies strictly in block order with
`txNum = index`: the code and message recorded for transaction `k` are those
of `validateTransaction` run against `prefixState … k`, the world state in
which the writes of exactly the VALID transactions of index `< k` of the
same block have been applied (each at its own index) — so transaction `k`'s
read-set validation observes those earlier transactions' writes. -/
theorem commitBlock_validates_after_valid_prefix (msp : MSP) (st : PeerState)
    (ledger : Ledger) (block : Block) (k : Nat) (tx : TransactionEnvelope)
    (htx : block.transactions.get? k = some tx) :
    (commitBlock msp st ledger block).1.get? k =
      some ⟨tx.txId,
        (validateTransaction msp
          (prefixState msp block.header.number st block.transactions k) tx).code,
        (validateTransaction msp
          (prefixState msp block.header.number st block.transactions k) tx).message⟩ :=
  commitLoop_get msp block.header.number block.transactions st 0 k tx htx

/-- C3 witness: in the one-transaction block `witnessBlock` under `mspSig`,
the entry recorded at position 0 is `validateTransaction` at the prefix
state for `k = 0`. -/
theorem commitBlock_validates_after_valid_prefix_witness :
    (commitBlock mspSig emptyPeerState Ledger.empty witnessBlock).1.get? 0 =
      some ⟨witnessTx.txId,
        (validateTransaction mspSig
          (prefixState mspSig witnessBlock.header.number emptyPeerState
            witnessBlock.transactions 0) witnessTx).code,
        (validateTransaction mspSig
          (prefixState mspSig witnessBlock.header.number emptyPeerState
            witnessBlock.transactions 0) witnessTx).message⟩ :=
  commitBlock_validates_after_valid_prefix mspSig emptyPeerState Ledger.empty
    witnessBlock 0 witnessTx rfl

/-- The commit loop records entries for exactly the processed transactions,
in order, each carrying that transaction's txId. -/
theorem commitLoop_txIds (msp : MSP) (bn : Nat) :
    ∀ (txs : List TransactionEnvelope) (st : PeerState) (i : Nat),
      (commitLoop msp bn st i txs).1.map (·.txId) = txs.map (·.txId) := by
  intro txs
  induction txs with
  | nil => intro st i; rfl
  | cons tx rest ih => intro st i; simp [commitLoop, ih]

/-- The state the commit loop ends in is the replay that applies exactly
the transactions recorded VALID and skips the rest. -/
theorem commitLoop_applies_only_valid (msp : MSP) (bn : Nat) :
    ∀ (txs : List TransactionEnvelope) (st : PeerState) (i : Nat),
      (commitLoop msp bn st i txs).2 =
        applySkipping bn st i (txs.zip (commitLoop msp bn st i txs).1) := by
  intro txs
  induction txs with
  | nil => intro st i; rfl
  | cons tx rest ih =>
    intro st i
    simp only [commitLoop, List.zip_cons_cons, applySkipping]
    exact ih _ _

/-- C5: `commitBlock` never aborts on a validation failure — it records
exactly one `{txId, code, message?}` entry per transaction of the block, in
block order; its final world state is the replay that skips every
transaction recorded non-VALID (none of its writes applied) while still
applying the VALID ones at their indices; and it persists the block with
its `validationInfo` under the block's number. -/
theorem commitBlock_records_skips_persists (msp : MSP) (st : PeerState)
    (ledger : Ledger) (block : Block) :
    ((commitBlock msp st ledger block).1.map (·.txId) =
        block.transactions.map (·.txId)) ∧
    ((commitBlock msp st ledger block).2.2.blocks block.header.number =
        some { block with metadata := { block.metadata with
                 validationInfo := some (commitBlock msp st ledger block).1 } }) ∧
    ((commitBlock msp st ledger block).2.1 =
        applySkipping block.header.number st 0
          (block.transactions.zip (commitBlock msp st ledger block).1)) := by
  refine ⟨?_, ?_, ?_⟩
  · simpa [commitBlock] using
      commitLoop_txIds msp block.header.number block.transactions st 0
  · simp [commitBlock, storeBlock]
  · simpa [commitBlock] using
      commitLoop_applies_only_valid msp block.header.number block.transactions st 0

/-- When every endorsement signature verifies, the endorsement loop reaches
its end and evaluates the policy over the accumulated org set. -/
theorem endorsementLoop_all_verified (msp : MSP) (tx : TransactionEnvelope)
    (policy : EndorsementPolicy) :
    ∀ (es : List Endorsement) (orgs : List String),
      (∀ e ∈ es, (verifyEndorsement msp tx e).valid = true) →
      endorsementLoop msp tx policy es orgs =
        checkEndorsementPolicy policy
          (es.foldl (fun o e => addEndorsingOrg o e.endorserOrgId) orgs) := by
  intro es
  induction es with
  | nil => intro orgs _; rfl
  | cons e rest ih =>
    intro orgs hall
    have he := hall e (List.mem_cons_self e rest)
    have hrest : ∀ f ∈ rest, (verifyEndorsement msp tx f).valid = true :=
      fun f hf => hall f (List.mem_cons_of_mem e hf)
    simp only [endorsementLoop, he, if_true, List.foldl_cons]
    exact ih _ hrest

/-- A single failing endorsement signature makes the endorsement loop
return `ENDORSEMENT_POLICY_FAILURE` for the whole transaction. -/
theorem endorsementLoop_any_failure (msp : MSP) (tx : TransactionEnvelope)
    (policy : EndorsementPolicy) :
    ∀ (es : List Endorsement) (orgs : List String),
      (∃ e ∈ es, (verifyEndorsement msp tx e).valid = false) →
      (endorsementLoop msp tx policy es orgs).code = .ENDORSEMENT_POLICY_FAILURE := by
  intro es
  induction es with
  | nil =>
    rintro orgs ⟨e, he, -⟩
    cases he
  | cons e rest ih =>
    rintro orgs ⟨f, hf, hfv⟩
    by_cases hev : (verifyEndorsement msp tx e).valid = true
    · rcases List.mem_cons.mp hf with rfl | hfr
      · rw [hev] at hfv; cases hfv
      · simp only [endorsementLoop, hev, if_true]
        exact ih _ ⟨f, hfr, hfv⟩
    · have hev2 : (verifyEndorsement msp tx e).valid = false := by
        simpa using hev
      simp [endorsementLoop, hev2]

/-- C7 (amended): once the policy is resolved, `validateEndorsements`
requires *every* endorsement signature to verify: if all verify it
evaluates the policy over the distinct `endorserOrgId` values (in first-
occurrence order); if any fails, the transaction's code is
`ENDORSEMENT_POLICY_FAILURE` no matter what the verified endorsements would
have satisfied. -/
theorem validateEndorsements_requires_all_signatures (msp : MSP) (st : PeerState)
    (tx : TransactionEnvelope) (policy : EndorsementPolicy)
    (hp : resolvePolicy st tx = some policy) :
    ((∀ e ∈ tx.endorsements, (verifyEndorsement msp tx e).valid = true) →
        validateEndorsements msp st tx =
          checkEndorsementPolicy policy
            (distinctOrgs (tx.endorsements.map (·.endorserOrgId)))) ∧
    ((∃ e ∈ tx.endorsements, (verifyEndorsement msp tx e).valid = false) →
        (validateEndorsements msp st tx).code = .ENDORSEMENT_POLICY_FAILURE) := by
  have hv : validateEndorsements msp st tx =
      endorsementLoop msp tx policy tx.endorsements [] := by
    unfold validateEndorsements
    rw [hp]
  constructor
  · intro hall
    rw [hv, endorsementLoop_all_verified msp tx policy tx.endorsements [] hall]
    simp [distinctOrgs, List.foldl_map]
  · intro hex
    rw [hv]
    exact endorsementLoop_any_failure msp tx policy tx.endorsements [] hex

/-- C7 witness: for the fully verifiable `witnessTx` (policy
`{ANY, [Org1]}`) the committer's endorsement validation equals the policy
evaluation over the distinct endorsing orgs. -/
theorem validateEndorsements_requires_all_signatures_witness :
    validateEndorsements mspSig emptyPeerState witnessTx =
      checkEndorsementPolicy ⟨.ANY, ["Org1"]⟩
        (distinctOrgs (witnessTx.endorsements.map (·.endorserOrgId))) :=
  (validateEndorsements_requires_all_signatures mspSig emptyPeerState witnessTx
    ⟨.ANY, ["Org1"]⟩ rfl).1 (by decide)

/-- C7 (refuting the claim as stated): `txTwoEnd` carries one endorsement
that verifies (Org1) and one that does not; its verified endorsements
satisfy the `{ANY, [Org1]}` policy, yet `validateEndorsements` fails the
transaction with `ENDORSEMENT_POLICY_FAILURE` instead of excluding the
unverifiable endorsement. -/
theorem validateEndorsements_unverified_not_excluded :
    (verifyEndorsement mspSig txTwoEnd ⟨"peer1", "Org1", "ok"⟩).valid = true ∧
    (verifyEndorsement mspSig txTwoEnd ⟨"peer2", "Org2", "bad"⟩).valid = false ∧
    (checkEndorsementPolicy ⟨.ANY, ["Org1"]⟩ ["Org1"]).code = .VALID ∧
    (validateEndorsements mspSig emptyPeerState txTwoEnd).code =
      .ENDORSEMENT_POLICY_FAILURE := by
  refine ⟨by decide, by decide, by decide, by decide⟩

end Litefab
